import Mathlib

/-!
Verification of the UnityQuaternion library.

The Python source (src/UnityQuaternion/Quaternion.py) is shallowly embedded
over the real numbers: every Python float becomes a real number, the math
library functions become their Mathlib counterparts (math.sqrt = Real.sqrt,
math.asin = Real.arcsin, math.acos = Real.arccos, math.cos = Real.cos), and
the Python float modulo and math.atan2 are modelled explicitly below.
Fallible dispatch (the overloaded multiplication operator, which can raise
TypeError or IndexError) is embedded with Except.
-/

namespace UnityQuaternion

noncomputable section

/-- The Quaternion value type: four scalar fields, representing
x*i + y*j + z*k + w.  Embeds the Python class Quaternion. -/
@[ext]
structure Quaternion where
  x : ℝ
  y : ℝ
  z : ℝ
  w : ℝ

/-- Model of math.atan2 over the reals: the angle of the point (x, y),
following the C and Python math-library convention. -/
def atan2 (y x : ℝ) : ℝ :=
  if 0 < x then Real.arctan (y / x)
  else if x < 0 then
    if 0 ≤ y then Real.arctan (y / x) + Real.pi
    else Real.arctan (y / x) - Real.pi
  else
    if 0 < y then Real.pi / 2
    else if y < 0 then -(Real.pi / 2)
    else 0

/-- Model of math.degrees: radians to degrees. -/
def degrees (r : ℝ) : ℝ := r * 180 / Real.pi

/-- Model of the Python float modulo `a % m`: the remainder with the sign
of the divisor, a - m * floor (a / m). -/
def pymod (a m : ℝ) : ℝ := a - m * (⌊a / m⌋ : ℝ)

namespace Quaternion

/-- Embeds the property _norm: (x**2 + y**2 + z**2 + w**2) ** 0.5. -/
def _norm (q : Quaternion) : ℝ :=
  Real.sqrt (q.x ^ 2 + q.y ^ 2 + q.z ^ 2 + q.w ^ 2)

/-- Embeds the property _conjugate: Quaternion(-x, -y, -z, w). -/
def _conjugate (q : Quaternion) : Quaternion :=
  ⟨-q.x, -q.y, -q.z, q.w⟩

/-- Embeds the property normalized: component-wise division by _norm. -/
def normalized (q : Quaternion) : Quaternion :=
  ⟨q.x / q._norm, q.y / q._norm, q.z / q._norm, q.w / q._norm⟩

/-- Embeds identity(): the quaternion (0, 0, 0, 1). -/
def identity : Quaternion := ⟨0, 0, 0, 1⟩

/-- Embeds _multiply_quaternions, with the exact sign layout of the source. -/
def _multiply_quaternions (self right : Quaternion) : Quaternion :=
  ⟨self.x * right.w + self.w * right.x - self.z * right.y + self.y * right.z,
   self.y * right.w + self.z * right.x + self.w * right.y - self.x * right.z,
   self.z * right.w - self.y * right.x + self.x * right.y + self.w * right.z,
   self.w * right.w - self.x * right.x - self.y * right.y - self.z * right.z⟩

/-- Embeds _rotate_vector: normalize self, conjugate, sandwich the pure
quaternion (v0, v1, v2, 0), then rescale x, y, z by the original norm.
The two inner multiplications go through the Quaternion branch of the
overloaded operator, i.e. _multiply_quaternions. -/
def _rotate_vector (self : Quaternion) (vector : ℝ × ℝ × ℝ) : ℝ × ℝ × ℝ :=
  let n := self.normalized
  let inverted := n._conjugate
  let q_vector : Quaternion := ⟨vector.1, vector.2.1, vector.2.2, 0⟩
  let rotated := (n._multiply_quaternions q_vector)._multiply_quaternions inverted
  let norm := self._norm
  (rotated.x * norm, rotated.y * norm, rotated.z * norm)

/-- Embeds the property eulerAngles: normalize, branch on the gimbal-lock
tolerance 0.01 around sinx = ±1, convert to degrees, reduce modulo 360. -/
def eulerAngles (q : Quaternion) : ℝ × ℝ × ℝ :=
  let n := q.normalized
  let sinx := 2 * n.y * n.z - 2 * n.x * n.w
  let xyz : ℝ × ℝ × ℝ :=
    if |sinx - 1| < 0.01 then
      (Real.pi / 2, 0,
       atan2 (2 * n.x * n.y - 2 * n.z * n.w) (1 - 2 * n.y ^ 2 - 2 * n.z ^ 2))
    else if |sinx + 1| < 0.01 then
      (-(Real.pi / 2), 0,
       atan2 (2 * n.x * n.y - 2 * n.z * n.w) (1 - 2 * n.y ^ 2 - 2 * n.z ^ 2))
    else
      (Real.arcsin (-sinx),
       atan2 (2 * n.x * n.z + 2 * n.y * n.w) (1 - 2 * n.x ^ 2 - 2 * n.y ^ 2),
       atan2 (2 * n.x * n.y + 2 * n.z * n.w) (1 - 2 * n.x ^ 2 - 2 * n.z ^ 2))
  (pymod (degrees xyz.1) 360, pymod (degrees xyz.2.1) 360,
   pymod (degrees xyz.2.2) 360)

/-- Embeds the static method Dot. -/
def Dot (a b : Quaternion) : ℝ :=
  a.x * b.x + a.y * b.y + a.z * b.z + a.w * b.w

/-- Embeds the static method Angle: degrees(acos(dot) * 2). -/
def Angle (a b : Quaternion) : ℝ :=
  degrees (Real.arccos (Dot a b) * 2)

/-- Embeds the static method Inverse: conjugate divided component-wise by
the squared norm. -/
def Inverse (rotation : Quaternion) : Quaternion :=
  let c := rotation._conjugate
  let division := rotation._norm ^ 2
  ⟨c.x / division, c.y / division, c.z / division, c.w / division⟩

/-- Embeds the static method Normalize. -/
def Normalize (q : Quaternion) : Quaternion := q.normalized

/-- Embeds LerpUnclamped: normalize both inputs, blend with weight t on a
and (1 - t) on b, normalize the result. -/
def LerpUnclamped (a b : Quaternion) (t : ℝ) : Quaternion :=
  (Quaternion.mk
    (a.normalized.x * t + (1 - t) * b.normalized.x)
    (a.normalized.y * t + (1 - t) * b.normalized.y)
    (a.normalized.z * t + (1 - t) * b.normalized.z)
    (a.normalized.w * t + (1 - t) * b.normalized.w)).normalized

/-- Embeds Lerp: clamp t to [0, 1] by min(max(t, 0), 1), then delegate. -/
def Lerp (a b : Quaternion) (t : ℝ) : Quaternion :=
  LerpUnclamped a b (min (max t 0) 1)

/-- Embeds SlerpUnclamped: normalize both inputs, remap t by the cosine
ease curve, then delegate to LerpUnclamped. -/
def SlerpUnclamped (a b : Quaternion) (t : ℝ) : Quaternion :=
  LerpUnclamped a.normalized b.normalized (-Real.cos (t * Real.pi) * 0.5 + 0.5)

/-- Embeds Slerp: clamp t to [0, 1], then delegate to SlerpUnclamped. -/
def Slerp (a b : Quaternion) (t : ℝ) : Quaternion :=
  SlerpUnclamped a b (min (max t 0) 1)

/-- Embeds RotateTowards with its required third argument: normalize both,
compute the angle, cap the interpolation ratio, delegate to Lerp.  In the
source the function reassigns its first two parameters to the normalized
values; here they are fresh names rf and rt. -/
def RotateTowards (rotation_from rotation_to : Quaternion)
    (maxDegreesDelta : ℝ) : Quaternion :=
  let rf := rotation_from.normalized
  let rt := rotation_to.normalized
  let angle := Angle rf rt
  let ratio := if angle > maxDegreesDelta then maxDegreesDelta / angle else 1
  Lerp rf rt ratio

end Quaternion

/-- The dynamic type of the right operand of the overloaded multiplication
operator: a Quaternion, a tuple of floats of any length, or any other
value. -/
inductive MulRight where
  | quat : Quaternion → MulRight
  | tup : List ℝ → MulRight
  | other : MulRight

/-- A successful result of the overloaded multiplication operator. -/
inductive MulResult where
  | quat : Quaternion → MulResult
  | vec : ℝ × ℝ × ℝ → MulResult

/-- The exceptions the overloaded multiplication operator can raise. -/
inductive PyError where
  | typeError : PyError
  | indexError : PyError
deriving DecidableEq

/-- Embeds the overloaded operator __mul__: a Quaternion operand goes to
_multiply_quaternions, a tuple operand goes to _rotate_vector (which reads
exactly indices 0, 1, 2 and raises IndexError when one is missing), and
any other operand raises TypeError. -/
def __mul__ (self : Quaternion) (other : MulRight) :
    Except PyError MulResult :=
  match other with
  | MulRight.quat q =>
      Except.ok (MulResult.quat (self._multiply_quaternions q))
  | MulRight.tup l =>
      match l.get? 0, l.get? 1, l.get? 2 with
      | some v0, some v1, some v2 =>
          Except.ok (MulResult.vec (self._rotate_vector (v0, v1, v2)))
      | _, _, _ => Except.error PyError.indexError
  | MulRight.other => Except.error PyError.typeError

/-- Restates the claim about LerpUnclamped in the wording of the spec:
normalize a and b, blend component-wise with weight t on a and weight
(1 - t) on b, normalize the blend.  To be compared with LerpUnclamped. -/
def LerpUnclampedSpec (a b : Quaternion) (t : ℝ) : Quaternion :=
  let na := Quaternion.Normalize a
  let nb := Quaternion.Normalize b
  Quaternion.Normalize (Quaternion.mk (na.x * t + nb.x * (1 - t))
    (na.y * t + nb.y * (1 - t)) (na.z * t + nb.z * (1 - t))
    (na.w * t + nb.w * (1 - t)))

/-- Restates the claim about vector rotation in the wording of the spec:
normalize q, embed the vector as a pure quaternion, sandwich it between
the normalized quaternion and its conjugate, and rescale the vector part
by the original pre-normalization norm of q. -/
def rotateVectorSpec (q : Quaternion) (v : ℝ × ℝ × ℝ) : ℝ × ℝ × ℝ :=
  let qn := Quaternion.Normalize q
  let vq : Quaternion := ⟨v.1, v.2.1, v.2.2, 0⟩
  let r := (qn._multiply_quaternions vq)._multiply_quaternions qn._conjugate
  (r.x * q._norm, r.y * q._norm, r.z * q._norm)

/-- Restates the claim about eulerAngles in the wording of the spec:
normalize q, compute sinx, branch on the two gimbal-lock tolerances
(returning 90 degrees respectively -90 degrees taken modulo 360 for the
x component and 0 for the y component), otherwise use the general
asin/atan2 closed form, everything in degrees reduced modulo 360. -/
def eulerAnglesSpec (q : Quaternion) : ℝ × ℝ × ℝ :=
  let n := Quaternion.Normalize q
  let sinx := 2 * n.y * n.z - 2 * n.x * n.w
  if |sinx - 1| < 0.01 then
    (90, 0,
     pymod (degrees (atan2 (2 * n.x * n.y - 2 * n.z * n.w)
       (1 - 2 * n.y ^ 2 - 2 * n.z ^ 2))) 360)
  else if |sinx + 1| < 0.01 then
    (pymod (-90) 360, 0,
     pymod (degrees (atan2 (2 * n.x * n.y - 2 * n.z * n.w)
       (1 - 2 * n.y ^ 2 - 2 * n.z ^ 2))) 360)
  else
    (pymod (degrees (Real.arcsin (-sinx))) 360,
     pymod (degrees (atan2 (2 * n.x * n.z + 2 * n.y * n.w)
       (1 - 2 * n.x ^ 2 - 2 * n.y ^ 2))) 360,
     pymod (degrees (atan2 (2 * n.x * n.y + 2 * n.z * n.w)
       (1 - 2 * n.x ^ 2 - 2 * n.z ^ 2))) 360)

end

/-! ## Helper lemmas -/

/-- The sum of the squares of the four components is nonnegative. -/
theorem sumsq_nonneg (q : Quaternion) :
    0 ≤ q.x ^ 2 + q.y ^ 2 + q.z ^ 2 + q.w ^ 2 := by positivity

/-- The square of the norm is the sum of the squares of the components. -/
theorem norm_sq_eq (q : Quaternion) :
    q._norm ^ 2 = q.x ^ 2 + q.y ^ 2 + q.z ^ 2 + q.w ^ 2 :=
  Real.sq_sqrt (sumsq_nonneg q)

/-- The norm is nonnegative. -/
theorem q_norm_nonneg (q : Quaternion) : 0 ≤ q._norm :=
  Real.sqrt_nonneg _

/-- A nonzero norm is positive. -/
theorem q_norm_pos (q : Quaternion) (h : q._norm ≠ 0) : 0 < q._norm :=
  (q_norm_nonneg q).lt_of_ne (Ne.symm h)

/-- Normalizing a quaternion of nonzero norm yields a quaternion of
norm one. -/
theorem normalized_norm_one (q : Quaternion) (h : q._norm ≠ 0) :
    q.normalized._norm = 1 := by
  have hn2 := norm_sq_eq q
  have key : q.normalized.x ^ 2 + q.normalized.y ^ 2 + q.normalized.z ^ 2 +
      q.normalized.w ^ 2 = 1 := by
    simp only [Quaternion.normalized]
    field_simp
    linarith
  unfold Quaternion._norm
  rw [key, Real.sqrt_one]

/-- Normalization is idempotent on quaternions of nonzero norm. -/
theorem normalized_idem (q : Quaternion) (h : q._norm ≠ 0) :
    q.normalized.normalized = q.normalized := by
  have h1 := normalized_norm_one q h
  ext
  · show q.normalized.x / q.normalized._norm = q.normalized.x
    rw [h1, div_one]
  · show q.normalized.y / q.normalized._norm = q.normalized.y
    rw [h1, div_one]
  · show q.normalized.z / q.normalized._norm = q.normalized.z
    rw [h1, div_one]
  · show q.normalized.w / q.normalized._norm = q.normalized.w
    rw [h1, div_one]

/-- The clamp min (max t 0) 1 evaluates to 0 on nonpositive t. -/
theorem clamp_of_nonpos {t : ℝ} (h : t ≤ 0) : min (max t 0) 1 = 0 := by
  rw [max_eq_right h]
  exact min_eq_left (by norm_num)

/-- The clamp min (max t 0) 1 evaluates to 1 when 1 ≤ t. -/
theorem clamp_of_one_le {t : ℝ} (h : 1 ≤ t) : min (max t 0) 1 = 1 := by
  rw [max_eq_left (le_trans zero_le_one h)]
  exact min_eq_right h

/-- LerpUnclamped at t = 0 returns the normalized second argument. -/
theorem lerpUnclamped_zero (a b : Quaternion) (hb : b._norm ≠ 0) :
    Quaternion.LerpUnclamped a b 0 = b.normalized := by
  unfold Quaternion.LerpUnclamped
  have hblend : Quaternion.mk
      (a.normalized.x * 0 + (1 - 0) * b.normalized.x)
      (a.normalized.y * 0 + (1 - 0) * b.normalized.y)
      (a.normalized.z * 0 + (1 - 0) * b.normalized.z)
      (a.normalized.w * 0 + (1 - 0) * b.normalized.w) = b.normalized := by
    ext <;> dsimp <;> ring
  rw [hblend]
  exact normalized_idem b hb

/-- LerpUnclamped at t = 1 returns the normalized first argument. -/
theorem lerpUnclamped_one (a b : Quaternion) (ha : a._norm ≠ 0) :
    Quaternion.LerpUnclamped a b 1 = a.normalized := by
  unfold Quaternion.LerpUnclamped
  have hblend : Quaternion.mk
      (a.normalized.x * 1 + (1 - 1) * b.normalized.x)
      (a.normalized.y * 1 + (1 - 1) * b.normalized.y)
      (a.normalized.z * 1 + (1 - 1) * b.normalized.z)
      (a.normalized.w * 1 + (1 - 1) * b.normalized.w) = a.normalized := by
    ext <;> dsimp <;> ring
  rw [hblend]
  exact normalized_idem a ha

/-- The Slerp ease curve maps 0 to 0. -/
theorem slerp_remap_zero : -Real.cos ((0:ℝ) * Real.pi) * 0.5 + 0.5 = 0 := by
  rw [zero_mul, Real.cos_zero]
  norm_num

/-- The Slerp ease curve maps 1 to 1. -/
theorem slerp_remap_one : -Real.cos ((1:ℝ) * Real.pi) * 0.5 + 0.5 = 1 := by
  rw [one_mul, Real.cos_pi]
  norm_num

/-- SlerpUnclamped at t = 0 returns the normalized second argument. -/
theorem slerpUnclamped_zero (a b : Quaternion) (hb : b._norm ≠ 0) :
    Quaternion.SlerpUnclamped a b 0 = b.normalized := by
  unfold Quaternion.SlerpUnclamped
  rw [slerp_remap_zero]
  have hb1 : b.normalized._norm ≠ 0 := by
    rw [normalized_norm_one b hb]
    norm_num
  rw [lerpUnclamped_zero a.normalized b.normalized hb1]
  exact normalized_idem b hb

/-- SlerpUnclamped at t = 1 returns the normalized first argument. -/
theorem slerpUnclamped_one (a b : Quaternion) (ha : a._norm ≠ 0) :
    Quaternion.SlerpUnclamped a b 1 = a.normalized := by
  unfold Quaternion.SlerpUnclamped
  rw [slerp_remap_one]
  have ha1 : a.normalized._norm ≠ 0 := by
    rw [normalized_norm_one a ha]
    norm_num
  rw [lerpUnclamped_one a.normalized b.normalized ha1]
  exact normalized_idem a ha

/-- The Python float modulo as the scaled fractional part. -/
theorem pymod_eq_fract (a m : ℝ) (hm : m ≠ 0) :
    pymod a m = m * Int.fract (a / m) := by
  unfold pymod Int.fract
  field_simp

/-- The Python float modulo with a positive divisor is nonnegative. -/
theorem pymod_nonneg (a : ℝ) {m : ℝ} (hm : 0 < m) : 0 ≤ pymod a m := by
  rw [pymod_eq_fract a m hm.ne']
  exact mul_nonneg hm.le (Int.fract_nonneg _)

/-- The Python float modulo with a positive divisor is below the divisor. -/
theorem pymod_lt (a : ℝ) {m : ℝ} (hm : 0 < m) : pymod a m < m := by
  rw [pymod_eq_fract a m hm.ne']
  calc m * Int.fract (a / m) < m * 1 :=
        mul_lt_mul_of_pos_left (Int.fract_lt_one _) hm
    _ = m := mul_one m

/-- Zero radians is zero degrees. -/
theorem degrees_zero : degrees 0 = 0 := by
  simp [degrees]

/-- Half pi radians is ninety degrees. -/
theorem degrees_half_pi : degrees (Real.pi / 2) = 90 := by
  unfold degrees
  field_simp
  ring

/-- Minus half pi radians is minus ninety degrees. -/
theorem degrees_neg_half_pi : degrees (-(Real.pi / 2)) = -90 := by
  unfold degrees
  field_simp
  ring

/-- Ninety is its own residue modulo 360. -/
theorem pymod_90 : pymod (90:ℝ) 360 = 90 := by
  unfold pymod
  rw [show ⌊(90:ℝ) / 360⌋ = 0 from by
    rw [Int.floor_eq_zero_iff]
    constructor <;> norm_num]
  norm_num

/-- Zero is its own residue modulo 360. -/
theorem pymod_0 : pymod (0:ℝ) 360 = 0 := by
  unfold pymod
  norm_num

/-- Each component of eulerAngles is a residue modulo 360. -/
theorem eulerAngles_shape (q : Quaternion) :
    ∃ u v ww, q.eulerAngles = (pymod u 360, pymod v 360, pymod ww 360) :=
  ⟨_, _, _, rfl⟩

/-! ## Claims -/

/-- C1: multiplying two quaternions with the overloaded operator yields the
component formula with exactly the sign pattern of the source. -/
theorem mul_quat_formula (a b : Quaternion) :
    __mul__ a (MulRight.quat b) = Except.ok (MulResult.quat (Quaternion.mk
      (a.x * b.w + a.w * b.x - a.z * b.y + a.y * b.z)
      (a.y * b.w + a.z * b.x + a.w * b.y - a.x * b.z)
      (a.z * b.w - a.y * b.x + a.x * b.y + a.w * b.z)
      (a.w * b.w - a.x * b.x - a.y * b.y - a.z * b.z))) := rfl

/-- C2: for quaternions of nonzero norm, LerpUnclamped normalizes both
inputs, blends them component-wise with weight t on the first and (1 - t)
on the second, and normalizes the blend. -/
theorem lerpUnclamped_follows_spec (a b : Quaternion) (t : ℝ)
    (ha : a._norm ≠ 0) (hb : b._norm ≠ 0) :
    Quaternion.LerpUnclamped a b t = LerpUnclampedSpec a b t := by
  unfold Quaternion.LerpUnclamped LerpUnclampedSpec Quaternion.Normalize
  congr 1
  ext <;> dsimp <;> ring

/-- Witness for C2 at a = b = identity, t = 2. -/
theorem lerpUnclamped_follows_spec_witness :
    Quaternion.LerpUnclamped Quaternion.identity Quaternion.identity 2 =
      LerpUnclampedSpec Quaternion.identity Quaternion.identity 2 :=
  lerpUnclamped_follows_spec Quaternion.identity Quaternion.identity 2
    (by norm_num [Quaternion._norm, Quaternion.identity, Real.sqrt_one])
    (by norm_num [Quaternion._norm, Quaternion.identity, Real.sqrt_one])

/-- C3 counterexample: at a = (1,0,0,0) and b = (0,0,0,1), the value
Lerp a b 0 is not the normalized a; the blend weight t of the source is
on a, so t = 0 yields the normalized b. -/
theorem lerp_zero_counterexample :
    Quaternion.Lerp ⟨1, 0, 0, 0⟩ ⟨0, 0, 0, 1⟩ 0 ≠
      Quaternion.normalized ⟨1, 0, 0, 0⟩ := by
  have hb : (Quaternion.mk 0 0 0 1)._norm ≠ 0 := by
    norm_num [Quaternion._norm, Real.sqrt_one]
  have h1 : Quaternion.Lerp ⟨1, 0, 0, 0⟩ ⟨0, 0, 0, 1⟩ 0 =
      (Quaternion.mk 0 0 0 1).normalized := by
    unfold Quaternion.Lerp
    rw [clamp_of_nonpos le_rfl, lerpUnclamped_zero _ _ hb]
  rw [h1]
  intro hEq
  have hx := congrArg Quaternion.x hEq
  norm_num [Quaternion.normalized, Quaternion._norm, Real.sqrt_one] at hx

/-- C3 (amended): the interpolation boundaries are the normalized inputs
with the roles of a and b swapped relative to the spec sentence: at t = 0
both Lerp and Slerp return the normalized b and at t = 1 the normalized a;
the clamped variants agree with the unclamped ones at the boundary for
t ≤ 0 and t ≥ 1. -/
theorem interp_boundary (a b : Quaternion) (t0 t1 : ℝ)
    (ha : a._norm ≠ 0) (hb : b._norm ≠ 0) (h0 : t0 ≤ 0) (h1 : 1 ≤ t1) :
    Quaternion.Lerp a b 0 = b.normalized ∧
    Quaternion.Lerp a b 1 = a.normalized ∧
    Quaternion.Lerp a b t0 = Quaternion.LerpUnclamped a b 0 ∧
    Quaternion.Lerp a b t1 = Quaternion.LerpUnclamped a b 1 ∧
    Quaternion.Slerp a b t0 = Quaternion.SlerpUnclamped a b 0 ∧
    Quaternion.Slerp a b t1 = Quaternion.SlerpUnclamped a b 1 ∧
    Quaternion.Slerp a b 0 = b.normalized ∧
    Quaternion.Slerp a b 1 = a.normalized := by
  refine ⟨?_, ?_, ?_, ?_, ?_, ?_, ?_, ?_⟩
  · unfold Quaternion.Lerp
    rw [clamp_of_nonpos le_rfl]
    exact lerpUnclamped_zero a b hb
  · unfold Quaternion.Lerp
    rw [clamp_of_one_le le_rfl]
    exact lerpUnclamped_one a b ha
  · unfold Quaternion.Lerp
    rw [clamp_of_nonpos h0]
  · unfold Quaternion.Lerp
    rw [clamp_of_one_le h1]
  · unfold Quaternion.Slerp
    rw [clamp_of_nonpos h0]
  · unfold Quaternion.Slerp
    rw [clamp_of_one_le h1]
  · unfold Quaternion.Slerp
    rw [clamp_of_nonpos le_rfl]
    exact slerpUnclamped_zero a b hb
  · unfold Quaternion.Slerp
    rw [clamp_of_one_le le_rfl]
    exact slerpUnclamped_one a b ha

/-- Witness for the amended C3 at a = (1,0,0,0), b = (0,0,0,1), t0 = -1,
t1 = 2. -/
theorem interp_boundary_witness :
    Quaternion.Lerp ⟨1, 0, 0, 0⟩ ⟨0, 0, 0, 1⟩ 0 =
      Quaternion.normalized ⟨0, 0, 0, 1⟩ ∧
    Quaternion.Lerp ⟨1, 0, 0, 0⟩ ⟨0, 0, 0, 1⟩ 1 =
      Quaternion.normalized ⟨1, 0, 0, 0⟩ ∧
    Quaternion.Lerp ⟨1, 0, 0, 0⟩ ⟨0, 0, 0, 1⟩ (-1) =
      Quaternion.LerpUnclamped ⟨1, 0, 0, 0⟩ ⟨0, 0, 0, 1⟩ 0 ∧
    Quaternion.Lerp ⟨1, 0, 0, 0⟩ ⟨0, 0, 0, 1⟩ 2 =
      Quaternion.LerpUnclamped ⟨1, 0, 0, 0⟩ ⟨0, 0, 0, 1⟩ 1 ∧
    Quaternion.Slerp ⟨1, 0, 0, 0⟩ ⟨0, 0, 0, 1⟩ (-1) =
      Quaternion.SlerpUnclamped ⟨1, 0, 0, 0⟩ ⟨0, 0, 0, 1⟩ 0 ∧
    Quaternion.Slerp ⟨1, 0, 0, 0⟩ ⟨0, 0, 0, 1⟩ 2 =
      Quaternion.SlerpUnclamped ⟨1, 0, 0, 0⟩ ⟨0, 0, 0, 1⟩ 1 ∧
    Quaternion.Slerp ⟨1, 0, 0, 0⟩ ⟨0, 0, 0, 1⟩ 0 =
      Quaternion.normalized ⟨0, 0, 0, 1⟩ ∧
    Quaternion.Slerp ⟨1, 0, 0, 0⟩ ⟨0, 0, 0, 1⟩ 1 =
      Quaternion.normalized ⟨1, 0, 0, 0⟩ :=
  interp_boundary ⟨1, 0, 0, 0⟩ ⟨0, 0, 0, 1⟩ (-1) 2
    (by norm_num [Quaternion._norm, Real.sqrt_one])
    (by norm_num [Quaternion._norm, Real.sqrt_one])
    (by norm_num) (by norm_num)

/-- C5: for a quaternion of nonzero norm, eulerAngles normalizes the input,
branches on the gimbal-lock tolerance around sinx = 1 and sinx = -1 exactly
as the spec states (with 90 respectively -90 modulo 360 for the x component
and 0 for the y component), falls back to the general asin/atan2 closed
form otherwise, and every returned component lies in [0, 360). -/
theorem eulerAngles_branch_range (q : Quaternion) (h : q._norm ≠ 0) :
    q.eulerAngles = eulerAnglesSpec q ∧
    0 ≤ q.eulerAngles.1 ∧ q.eulerAngles.1 < 360 ∧
    0 ≤ q.eulerAngles.2.1 ∧ q.eulerAngles.2.1 < 360 ∧
    0 ≤ q.eulerAngles.2.2 ∧ q.eulerAngles.2.2 < 360 := by
  have h360 : (0:ℝ) < 360 := by norm_num
  constructor
  · simp only [Quaternion.eulerAngles, eulerAnglesSpec, Quaternion.Normalize]
    split_ifs <;>
      simp [degrees_half_pi, degrees_neg_half_pi, degrees_zero, pymod_90,
        pymod_0]
  · obtain ⟨u, v, ww, he⟩ := eulerAngles_shape q
    rw [he]
    exact ⟨pymod_nonneg _ h360, pymod_lt _ h360, pymod_nonneg _ h360,
      pymod_lt _ h360, pymod_nonneg _ h360, pymod_lt _ h360⟩

/-- Witness for C5 at the identity quaternion. -/
theorem eulerAngles_branch_range_witness :
    Quaternion.identity.eulerAngles = eulerAnglesSpec Quaternion.identity ∧
    0 ≤ Quaternion.identity.eulerAngles.1 ∧
    Quaternion.identity.eulerAngles.1 < 360 ∧
    0 ≤ Quaternion.identity.eulerAngles.2.1 ∧
    Quaternion.identity.eulerAngles.2.1 < 360 ∧
    0 ≤ Quaternion.identity.eulerAngles.2.2 ∧
    Quaternion.identity.eulerAngles.2.2 < 360 :=
  eulerAngles_branch_range Quaternion.identity
    (by norm_num [Quaternion._norm, Quaternion.identity, Real.sqrt_one])

/-- C6: rotating a 3-vector with the overloaded operator normalizes the
quaternion, conjugates the embedded pure vector quaternion with it, and
rescales the vector part by the pre-normalization norm. -/
theorem mul_vector_follows_spec (q : Quaternion) (v1 v2 v3 : ℝ)
    (h : q._norm ≠ 0) :
    __mul__ q (MulRight.tup [v1, v2, v3]) =
      Except.ok (MulResult.vec (rotateVectorSpec q (v1, v2, v3))) := rfl

/-- Witness for C6 at the identity quaternion and the vector (1, 2, 3). -/
theorem mul_vector_follows_spec_witness :
    __mul__ Quaternion.identity (MulRight.tup [1, 2, 3]) =
      Except.ok (MulResult.vec (rotateVectorSpec Quaternion.identity
        (1, 2, 3))) :=
  mul_vector_follows_spec Quaternion.identity 1 2 3
    (by norm_num [Quaternion._norm, Quaternion.identity, Real.sqrt_one])

/-- C7: for a quaternion of nonzero norm, the product of the normalized
quaternion with the normalized inverse is the identity up to sign (in fact
exactly the identity). -/
theorem inverse_law (q : Quaternion) (h : q._norm ≠ 0) :
    (Quaternion.Normalize q)._multiply_quaternions
        (Quaternion.Normalize (Quaternion.Inverse q)) = Quaternion.identity ∨
    (Quaternion.Normalize q)._multiply_quaternions
        (Quaternion.Normalize (Quaternion.Inverse q)) =
      Quaternion.mk 0 0 0 (-1) := by
  left
  have hpos := q_norm_pos q h
  have hn2 := norm_sq_eq q
  have hinv_norm : (Quaternion.Inverse q)._norm = 1 / q._norm := by
    have key : (Quaternion.Inverse q).x ^ 2 + (Quaternion.Inverse q).y ^ 2 +
        (Quaternion.Inverse q).z ^ 2 + (Quaternion.Inverse q).w ^ 2 =
        (1 / q._norm) ^ 2 := by
      show (-q.x / q._norm ^ 2) ^ 2 + (-q.y / q._norm ^ 2) ^ 2 +
        (-q.z / q._norm ^ 2) ^ 2 + (q.w / q._norm ^ 2) ^ 2 = (1 / q._norm) ^ 2
      field_simp
      nlinarith [hn2]
    unfold Quaternion._norm
    rw [key, Real.sqrt_sq (by positivity)]
    unfold Quaternion._norm
    rfl
  have hNI : Quaternion.Normalize (Quaternion.Inverse q) =
      Quaternion.mk (-q.x / q._norm) (-q.y / q._norm) (-q.z / q._norm)
        (q.w / q._norm) := by
    unfold Quaternion.Normalize Quaternion.normalized
    rw [hinv_norm]
    ext
    · show -q.x / q._norm ^ 2 / (1 / q._norm) = -q.x / q._norm
      field_simp
      ring
    · show -q.y / q._norm ^ 2 / (1 / q._norm) = -q.y / q._norm
      field_simp
      ring
    · show -q.z / q._norm ^ 2 / (1 / q._norm) = -q.z / q._norm
      field_simp
      ring
    · show q.w / q._norm ^ 2 / (1 / q._norm) = q.w / q._norm
      field_simp
      ring
  rw [hNI]
  unfold Quaternion.Normalize Quaternion.normalized
    Quaternion._multiply_quaternions Quaternion.identity
  ext
  · show q.x / q._norm * (q.w / q._norm) + q.w / q._norm * (-q.x / q._norm) -
      q.z / q._norm * (-q.y / q._norm) + q.y / q._norm * (-q.z / q._norm) = 0
    ring
  · show q.y / q._norm * (q.w / q._norm) + q.z / q._norm * (-q.x / q._norm) +
      q.w / q._norm * (-q.y / q._norm) - q.x / q._norm * (-q.z / q._norm) = 0
    ring
  · show q.z / q._norm * (q.w / q._norm) - q.y / q._norm * (-q.x / q._norm) +
      q.x / q._norm * (-q.y / q._norm) + q.w / q._norm * (-q.z / q._norm) = 0
    ring
  · show q.w / q._norm * (q.w / q._norm) - q.x / q._norm * (-q.x / q._norm) -
      q.y / q._norm * (-q.y / q._norm) - q.z / q._norm * (-q.z / q._norm) = 1
    field_simp
    linarith [hn2]

/-- Witness for C7 at the quaternion (1, 2, 3, 4). -/
theorem inverse_law_witness :
    (Quaternion.Normalize ⟨1, 2, 3, 4⟩)._multiply_quaternions
        (Quaternion.Normalize (Quaternion.Inverse ⟨1, 2, 3, 4⟩)) =
      Quaternion.identity ∨
    (Quaternion.Normalize ⟨1, 2, 3, 4⟩)._multiply_quaternions
        (Quaternion.Normalize (Quaternion.Inverse ⟨1, 2, 3, 4⟩)) =
      Quaternion.mk 0 0 0 (-1) :=
  inverse_law ⟨1, 2, 3, 4⟩ (by
    have : (0:ℝ) < Real.sqrt ((1:ℝ) ^ 2 + 2 ^ 2 + 3 ^ 2 + 4 ^ 2) := by
      apply Real.sqrt_pos.mpr
      norm_num
    simp only [Quaternion._norm]
    exact this.ne')

/-- C8 counterexample: the two-element tuple (1, 2) is neither a
Quaternion nor a 3-vector, yet multiplying by it raises IndexError, not
the unsupported-operand TypeError the claim announces. -/
theorem mul_short_tuple_not_type_error :
    __mul__ Quaternion.identity (MulRight.tup [1, 2]) =
      Except.error PyError.indexError ∧
    PyError.indexError ≠ PyError.typeError :=
  ⟨rfl, by decide⟩

/-- C8 (amended): a right operand that is neither a Quaternion nor a tuple
raises the unsupported-operand TypeError and no product or rotation is
computed; tuple operands of any length are dispatched to vector rotation
instead. -/
theorem mul_other_type_error (q : Quaternion) :
    __mul__ q MulRight.other = Except.error PyError.typeError := rfl

/-- C9: the three-argument RotateTowards normalizes both rotations,
computes their angle, caps the interpolation ratio at maxDegreesDelta over
the angle, and delegates to Lerp; the claimed parameterless variant does
not exist in the source, which requires the third argument. -/
theorem rotateTowards_ratio (rotation_from rotation_to : Quaternion)
    (maxDegreesDelta : ℝ) :
    Quaternion.RotateTowards rotation_from rotation_to maxDegreesDelta =
      Quaternion.Lerp rotation_from.normalized rotation_to.normalized
        (if Quaternion.Angle rotation_from.normalized
            rotation_to.normalized > maxDegreesDelta then
          maxDegreesDelta /
            Quaternion.Angle rotation_from.normalized rotation_to.normalized
        else 1) := rfl

/-- C10: a tuple right operand is dispatched to vector rotation for any
length: with at least three elements only the first three are used, and
with fewer than three the operation fails with IndexError rather than
TypeError. -/
theorem mul_tuple_dispatch :
    (∀ (q : Quaternion) (a b c : ℝ) (rest : List ℝ),
      __mul__ q (MulRight.tup (a :: b :: c :: rest)) =
        Except.ok (MulResult.vec (q._rotate_vector (a, b, c)))) ∧
    (∀ (q : Quaternion) (l : List ℝ), l.length < 3 →
      __mul__ q (MulRight.tup l) = Except.error PyError.indexError) := by
  constructor
  · intro q a b c rest
    rfl
  · intro q l hl
    rcases l with _ | ⟨a, _ | ⟨b, _ | ⟨c, rest⟩⟩⟩
    · rfl
    · rfl
    · rfl
    · simp only [List.length] at hl
      omega

/-- Witness for C10: a four-element tuple rotates by its first three
components, and a one-element tuple raises IndexError. -/
theorem mul_tuple_dispatch_witness :
    __mul__ Quaternion.identity (MulRight.tup [1, 2, 3, 4]) =
      Except.ok (MulResult.vec (Quaternion.identity._rotate_vector
        (1, 2, 3))) ∧
    __mul__ Quaternion.identity (MulRight.tup [5]) =
      Except.error PyError.indexError :=
  ⟨mul_tuple_dispatch.1 Quaternion.identity 1 2 3 [4],
   mul_tuple_dispatch.2 Quaternion.identity [5] (by norm_num)⟩

end UnityQuaternion
